import Mathlib

/-!
Shallow embedding of `src/packages/aws-cdk/lib/api/hotswap/evaluate-cloudformation-template.ts`.

The TypeScript file implements a small recursive evaluator for CloudFormation
template expressions.  We embed the JSON-like values that the evaluator walks as
the inductive type `CfnExpr`; JavaScript's `undefined` (which arises internally,
e.g. from an out-of-range array index) is a separate constructor `undefined`, while
JSON `null` is `null`.  JSON numbers are modelled as integers (no claim involves
fractional numbers).  Asynchronous resolution is modelled as pure functions over
a fixed inventory snapshot: every `await this.stackResources.listStackResources()`
returns the same `Env.resources` list, which matches the source's behaviour for
one deterministic snapshot.  `CfnEvaluationException` carries only its message
string, exactly like the TypeScript class (`class CfnEvaluationException extends
Error {}`); dynamic JavaScript `TypeError`s raised by calling string/array
methods on values of the wrong type are modelled by the separate `jsError`
constructor.

The three property gets the evaluator performs on plain object literals —
`this.context[logicalId]`, `key in placeholders` / `placeholders[key]`, and
`RESOURCE_TYPE_ATTRIBUTES_FORMATS[resource.ResourceType]` (with its row's
`[attribute]` get) — consult the prototype chain in JavaScript, so a key such
as `"toString"` that misses every own key still resolves to the inherited
`Object.prototype` member, which is truthy.  This is modelled: the
`objectPrototypeMember` table lists the `Object.prototype` member names, an
inherited value is embedded as the `CfnExpr.builtin` constructor carrying its
`String()` coercion (the Node/V8 rendering, e.g.
`function toString() { [native code] }`), and every such get falls back to
that table after missing the own keys.  What happens past first contact with
an inherited member — invoking it as a formatter, or reading properties off it
through `Function.prototype` (e.g. resource kind `"constructor"` with
attribute `"assign"` reaching `Object.assign`) — depends on engine built-ins
far outside the template data model; those two spots in
`formatResourceAttribute` are marked by the explicit
`EvalError.unmodelledBuiltin` outcome, and no theorem below quantifies over
them.  `Array.prototype` members (reachable only through the untyped corners
of `Fn::Select` indexing and array-valued placeholder maps, which no claim
involves) are likewise not modelled, as noted at `jsGetIdx` and `subCallback`.
-/

/-- A CloudFormation template expression / evaluated value: the JSON-like data
the evaluator of `evaluate-cloudformation-template.ts` walks.  `undefined`
models JavaScript's `undefined`, `null` models JSON `null`.  `builtin` is a
value inherited from `Object.prototype` (a built-in function, or the prototype
object itself for the key `__proto__`), identified by its `String()` coercion —
the only observation the evaluator's own code paths make of such a value. -/
inductive CfnExpr where
  | null
  | undefined
  | str (s : String)
  | num (n : Int)
  | bool (b : Bool)
  | arr (xs : List CfnExpr)
  | obj (kvs : List (String × CfnExpr))
  | builtin (desc : String)

/-- JavaScript truthiness (`if (x)`) on an embedded value.  Inherited
`Object.prototype` members (functions, or the prototype object for
`__proto__`) are all truthy. -/
def jsFalsy : CfnExpr → Bool
  | .null => true
  | .undefined => true
  | .str s => s = ""
  | .num n => n = 0
  | .bool b => !b
  | .arr _ => false
  | .obj _ => false
  | .builtin _ => false

mutual

/-- JavaScript `String(x)` coercion of an embedded value.  An array coerces to
its elements joined with `","` (with `null`/`undefined` elements becoming the
empty string, as in `Array.prototype.join`); a plain object coerces to
`"[object Object]"`. -/
def jsToString : CfnExpr → String
  | .null => "null"
  | .undefined => "undefined"
  | .str s => s
  | .num n => toString n
  | .bool b => if b then "true" else "false"
  | .arr xs => jsArrToString xs
  | .obj _ => "[object Object]"
  | .builtin desc => desc

/-- `Array.prototype.toString`, i.e. `join(",")`, on an embedded array. -/
def jsArrToString : List CfnExpr → String
  | [] => ""
  | [x] => jsJoinElem x
  | x :: y :: xs => jsJoinElem x ++ "," ++ jsArrToString (y :: xs)

/-- How `Array.prototype.join` renders one element: `null` and `undefined`
become the empty string, everything else is `String(x)`. -/
def jsJoinElem : CfnExpr → String
  | .null => ""
  | .undefined => ""
  | x => jsToString x

end

/-- The members every plain object literal inherits from `Object.prototype`,
each mapped to the inherited value (embedded by its Node/V8 `String()`
coercion).  A property get or an `in` test on an object literal that misses
every own key still finds these, and they are all truthy. -/
def objectPrototypeMember : String → Option CfnExpr
  | "constructor" => some (.builtin "function Object() { [native code] }")
  | "hasOwnProperty" => some (.builtin "function hasOwnProperty() { [native code] }")
  | "isPrototypeOf" => some (.builtin "function isPrototypeOf() { [native code] }")
  | "propertyIsEnumerable" => some (.builtin "function propertyIsEnumerable() { [native code] }")
  | "toLocaleString" => some (.builtin "function toLocaleString() { [native code] }")
  | "toString" => some (.builtin "function toString() { [native code] }")
  | "valueOf" => some (.builtin "function valueOf() { [native code] }")
  | "__defineGetter__" => some (.builtin "function __defineGetter__() { [native code] }")
  | "__defineSetter__" => some (.builtin "function __defineSetter__() { [native code] }")
  | "__lookupGetter__" => some (.builtin "function __lookupGetter__() { [native code] }")
  | "__lookupSetter__" => some (.builtin "function __lookupSetter__() { [native code] }")
  | "__proto__" => some (.builtin "[object Object]")
  | _ => none

/-- `Array.prototype.join(sep)` on embedded elements (separator already a
string). -/
def jsArrayJoin (sep : String) : List CfnExpr → String
  | [] => ""
  | [x] => jsJoinElem x
  | x :: y :: xs => jsJoinElem x ++ sep ++ jsArrayJoin sep (y :: xs)

/-- `Array.prototype.join(sep)` specialised to string elements (used for
`splitKey.slice(1).join('.')` in the `Fn::Sub` callback). -/
def strJoin (sep : String) : List String → String
  | [] => ""
  | [g] => g
  | g :: h :: gs => g ++ sep ++ strJoin sep (h :: gs)

/-- Character-list core of ECMAScript `String.prototype.split` with a non-empty
string separator: scan left to right, cutting at each leftmost occurrence of
`sep` and skipping it.  (The `sep.isEmpty` guard keeps the recursion total; the
empty-separator case is handled by `jsStringSplit`.) -/
def splitOnList (sep : List Char) : List Char → List (List Char)
  | [] => [[]]
  | c :: cs =>
    if !sep.isEmpty && sep.isPrefixOf (c :: cs) then
      [] :: splitOnList sep ((c :: cs).drop sep.length)
    else
      match splitOnList sep cs with
      | [] => [[c]]
      | g :: gs => (c :: g) :: gs
  termination_by s => s.length
  decreasing_by
    · rename_i h
      have hne : sep.length ≠ 0 := by
        simp only [Bool.and_eq_true, Bool.not_eq_true'] at h
        intro hl
        rw [List.length_eq_zero] at hl
        subst hl
        simp at h
      simp only [List.length_drop, List.length_cons]
      omega
    · simp only [List.length_cons]
      omega

/-- ECMAScript `String.prototype.split` with a string separator: the empty
separator splits into single characters, a non-empty one cuts at each leftmost
occurrence. -/
def jsStringSplit (s sep : String) : List String :=
  if sep = "" then s.data.map (fun c => String.mk [c])
  else (splitOnList sep.data s.data).map String.mk

/-- Concatenation of groups with a separator between them, the inverse reading
of `splitOnList` (ECMAScript `Array.prototype.join` at the character-list
level). -/
def joinList (sep : List Char) : List (List Char) → List Char
  | [] => []
  | [g] => g
  | g :: h :: gs => g ++ sep ++ joinList sep (h :: gs)

/-- ASCII lower-casing of one character, the behaviour of
`String.prototype.toLowerCase` on the ASCII resource-type strings the source
applies it to. -/
def asciiLower (c : Char) : Char :=
  if 'A' ≤ c && c ≤ 'Z' then Char.ofNat (c.toNat + 32) else c

/-- ASCII `String.prototype.toLowerCase`. -/
def strToLower (s : String) : String :=
  String.mk (s.data.map asciiLower)

/-- `String.prototype.startsWith` (equivalently Lean's `String.startsWith`,
restated over character lists so that it reduces by evaluation). -/
def strStartsWith (s p : String) : Bool :=
  p.data.isPrefixOf s.data

/-- One entry of the stack-resource inventory snapshot returned by the
`listStackResources` collaborator (`AWS.CloudFormation.StackResourceSummary`
restricted to the three fields the evaluator reads).  The optional
`PhysicalResourceId` is modelled as a string, with `""` standing for an
absent/empty id (both are falsy where the source tests them). -/
structure StackResource where
  LogicalResourceId : String
  PhysicalResourceId : String
  ResourceType : String
  deriving DecidableEq

/-- The constructor arguments of `EvaluateCloudFormationTemplate`
(`EvaluateCloudFormationTemplateProps`).  The caller-supplied parameter map is
an ordered key/value list; `resources` is the fixed inventory snapshot that
every `listStackResources()` call of the session returns. -/
structure EvaluateCloudFormationTemplateProps where
  parameters : List (String × String)
  account : String
  region : String
  partition : String
  urlSuffix : String
  resources : List StackResource

/-- JavaScript object-literal lookup on an ordered key/value list: the last
entry with the key wins, mirroring `{ ...seed, ...overrides }` spread
semantics. -/
def objLookup : List (String × String) → String → Option String
  | [], _ => none
  | (k1, v1) :: rest, k =>
    match objLookup rest k with
    | some v => some v
    | none => if k1 == k then some v1 else none

/-- The four pseudo-parameter seed entries written first into the context
object literal by the constructor. -/
def pseudoParameters (props : EvaluateCloudFormationTemplateProps) : List (String × String) :=
  [("AWS::AccountId", props.account),
   ("AWS::Region", props.region),
   ("AWS::Partition", props.partition),
   ("AWS::URLSuffix", props.urlSuffix)]

/-- The evaluator session state: the fields the
`EvaluateCloudFormationTemplate` constructor stores (`this.context`,
`this.account`, `this.region`, `this.partition`, and the resource snapshot
behind `this.stackResources`). -/
structure EvaluateCloudFormationTemplate where
  context : List (String × String)
  account : String
  region : String
  partition : String
  resources : List StackResource

/-- The `EvaluateCloudFormationTemplate` constructor: the context object is
the four pseudo-parameters followed by the spread of the caller's parameters
(later entries shadow earlier ones under `objLookup`). -/
def mkEvaluator (props : EvaluateCloudFormationTemplateProps) : EvaluateCloudFormationTemplate :=
  { context := pseudoParameters props ++ props.parameters
    account := props.account
    region := props.region
    partition := props.partition
    resources := props.resources }

/-- The argument record handed to each ARN formatter (`ArnParts`). -/
structure ArnParts where
  partition : String
  service : String
  region : String
  account : String
  resourceType : String
  resourceName : String

/-- `iamArnFmt`: region is skipped for IAM resources. -/
def iamArnFmt (parts : ArnParts) : String :=
  "arn:" ++ parts.partition ++ ":" ++ parts.service ++ "::" ++ parts.account ++ ":" ++
    parts.resourceType ++ "/" ++ parts.resourceName

/-- `s3ArnFmt`: account, region and resource type are skipped for S3. -/
def s3ArnFmt (parts : ArnParts) : String :=
  "arn:" ++ parts.partition ++ ":" ++ parts.service ++ ":::" ++ parts.resourceName

/-- `stdColonResourceArnFmt`: the standard colon-separated ARN form. -/
def stdColonResourceArnFmt (parts : ArnParts) : String :=
  "arn:" ++ parts.partition ++ ":" ++ parts.service ++ ":" ++ parts.region ++ ":" ++
    parts.account ++ ":" ++ parts.resourceType ++ ":" ++ parts.resourceName

/-- `RESOURCE_TYPE_ATTRIBUTES_FORMATS`: the closed resource-kind → attribute →
formatter table. -/
def RESOURCE_TYPE_ATTRIBUTES_FORMATS : List (String × List (String × (ArnParts → String))) :=
  [("AWS::IAM::Role", [("Arn", iamArnFmt)]),
   ("AWS::IAM::User", [("Arn", iamArnFmt)]),
   ("AWS::IAM::Group", [("Arn", iamArnFmt)]),
   ("AWS::S3::Bucket", [("Arn", s3ArnFmt)]),
   ("AWS::Lambda::Function", [("Arn", stdColonResourceArnFmt)])]

/-- `getServiceOfResource`: second `::`-segment of the resource type,
lower-cased. -/
def getServiceOfResource (resource : StackResource) : String :=
  strToLower ((jsStringSplit resource.ResourceType "::").getD 1 "")

/-- `getResourceTypeArnPartOfResource`: third `::`-segment of the resource
type, lower-cased. -/
def getResourceTypeArnPartOfResource (resource : StackResource) : String :=
  strToLower ((jsStringSplit resource.ResourceType "::").getD 2 "")

/-- The failure outcomes of an evaluation: `cfnEvaluationException` is the
source's `CfnEvaluationException` (an `Error` subclass carrying nothing beyond
its message string); `jsError` stands for dynamic JavaScript errors
(`TypeError` and the like) raised by applying a string/array method to a value
of the wrong runtime type; `unmodelledBuiltin` marks the two spots in
`formatResourceAttribute` where the program would go on to use an inherited
`Object.prototype` member as a formatter row or formatter function — behaviour
of engine built-ins outside this model (it is not a program error: the program
may even succeed there, e.g. resource kind `"constructor"` with attribute
`"assign"` reaches `Object.assign`).  No theorem below quantifies over inputs
that produce `unmodelledBuiltin`. -/
inductive EvalError where
  | cfnEvaluationException (message : String)
  | jsError (message : String)
  | unmodelledBuiltin (description : String)

/-- `formatResourceAttribute`: with a falsy attribute the physical id is
returned directly (the `Ref` path); otherwise
`RESOURCE_TYPE_ATTRIBUTES_FORMATS[resource.ResourceType]` is a JavaScript
property get — an own row if the kind is registered, else the inherited
`Object.prototype` member (truthy, so the unsupported-kind throw is skipped)
if the kind names one, else `undefined`, which triggers the unsupported-kind
`CfnEvaluationException`.  The row's `[attribute]` get behaves the same way.
The two inherited-member continuations (using a built-in as a row, or invoking
one as a formatter) are outside the model and marked `unmodelledBuiltin`. -/
def formatResourceAttribute (self : EvaluateCloudFormationTemplate)
    (resource : StackResource) (attr : CfnExpr) : Except EvalError String :=
  let physicalId := resource.PhysicalResourceId
  if jsFalsy attr then .ok physicalId
  else
    match RESOURCE_TYPE_ATTRIBUTES_FORMATS.lookup resource.ResourceType with
    | none =>
      match objectPrototypeMember resource.ResourceType with
      | some _ =>
        .error (.unmodelledBuiltin ("Object.prototype." ++ resource.ResourceType ++
          " used as a formatter-table row"))
      | none =>
        .error (.cfnEvaluationException ("We don't support attributes of the '" ++
          resource.ResourceType ++ "' resource. This is a CDK limitation. " ++
          "Please report it at https://github.com/aws/aws-cdk/issues/new/choose"))
    | some resourceTypeFormats =>
      match resourceTypeFormats.lookup (jsToString attr) with
      | none =>
        match objectPrototypeMember (jsToString attr) with
        | some _ =>
          .error (.unmodelledBuiltin ("Object.prototype." ++ jsToString attr ++
            " invoked as an attribute formatter"))
        | none =>
          .error (.cfnEvaluationException ("We don't support the '" ++ jsToString attr ++
            "' attribute of the '" ++ resource.ResourceType ++ "' resource. This is a CDK limitation. " ++
            "Please report it at https://github.com/aws/aws-cdk/issues/new/choose"))
      | some attributeFmtFunc =>
        .ok (attributeFmtFunc
          { partition := self.partition
            service := getServiceOfResource resource
            region := self.region
            account := self.account
            resourceType := getResourceTypeArnPartOfResource resource
            resourceName := physicalId })

/-- The `stackResources.find(sr => sr.LogicalResourceId === logicalId)` step:
strict equality, so a non-string logical id matches nothing. -/
def resFind (resources : List StackResource) (logicalId : CfnExpr) : Option StackResource :=
  match logicalId with
  | .str s => resources.find? (fun sr => sr.LogicalResourceId == s)
  | _ => none

/-- `findGetAttTarget`: look the logical id up in the inventory snapshot and
format the requested attribute; `none` means the resource was not found. -/
def findGetAttTarget (self : EvaluateCloudFormationTemplate)
    (logicalId attr : CfnExpr) : Except EvalError (Option String) :=
  match resFind self.resources logicalId with
  | none => .ok none
  | some foundResource => (formatResourceAttribute self foundResource attr).map some

/-- The JavaScript property get `this.context[key]` on the context object
literal: the last own entry with the key wins (spread semantics, `objLookup`);
a key with no own entry still resolves to the inherited `Object.prototype`
member when it names one; otherwise the get is `undefined` (`none`). -/
def contextGet (ctx : List (String × String)) (k : String) : Option CfnExpr :=
  match objLookup ctx k with
  | some v => some (.str v)
  | none => objectPrototypeMember k

/-- `findRefTarget`: the Parameter Context is consulted first through the
property get `this.context[logicalId]`, with a truthiness test
(`if (parameterTarget)`): an own entry holding `""` is falsy and falls through
to the stack-resource lookup, while a truthy get result — an own non-empty
entry, or the inherited `Object.prototype` member for ids like `"toString"` —
is returned as-is. -/
def findRefTarget (self : EvaluateCloudFormationTemplate)
    (logicalId : CfnExpr) : Except EvalError (Option CfnExpr) :=
  let parameterTarget := contextGet self.context (jsToString logicalId)
  match parameterTarget with
  | some v =>
    if jsFalsy v then (findGetAttTarget self logicalId .null).map (Option.map .str)
    else .ok (some v)
  | none => (findGetAttTarget self logicalId .null).map (Option.map .str)

/-- The `Ref` intrinsic handler: a truthy resolution is returned (a string, or
the inherited built-in the context get produced), anything falsy raises
`CfnEvaluationException`. -/
def refIntrinsic (self : EvaluateCloudFormationTemplate)
    (logicalId : CfnExpr) : Except EvalError CfnExpr := do
  let refTarget ← findRefTarget self logicalId
  match refTarget with
  | some v =>
    if jsFalsy v then
      .error (.cfnEvaluationException ("Parameter or resource '" ++ jsToString logicalId ++
        "' could not be found for evaluation"))
    else .ok v
  | none =>
    .error (.cfnEvaluationException ("Parameter or resource '" ++ jsToString logicalId ++
      "' could not be found for evaluation"))

/-- The `Fn::GetAtt` intrinsic handler: a truthy formatted attribute value is
returned, anything falsy raises `CfnEvaluationException`.  (The compact
`"logicalId.attribute"` single-string form is not handled here, matching the
source's `ToDo` comment.) -/
def getAttIntrinsic (self : EvaluateCloudFormationTemplate)
    (logicalId attributeName : CfnExpr) : Except EvalError String := do
  let attrValue ← findGetAttTarget self logicalId attributeName
  match attrValue with
  | some v =>
    if v = "" then
      .error (.cfnEvaluationException ("Attribute '" ++ jsToString attributeName ++
        "' of resource '" ++ jsToString logicalId ++ "' could not be found for evaluation"))
    else .ok v
  | none =>
    .error (.cfnEvaluationException ("Attribute '" ++ jsToString attributeName ++
      "' of resource '" ++ jsToString logicalId ++ "' could not be found for evaluation"))

/-- The strings that name canonical array index properties (`"0"`, `"1"`, …,
no leading zeros). -/
def canonicalIndex (k : String) : Option Nat :=
  match k.toNat? with
  | some n => if toString n == k then some n else none
  | none => none

/-- JavaScript own-property lookup (`key in x` / `x[key]`) on objects and
arrays: object own keys, array index properties and `length`.  Prototype-chain
members are not modelled. -/
def jsGetProp : CfnExpr → String → Option CfnExpr
  | .obj kvs, k => kvs.lookup k
  | .arr xs, k =>
    if k == "length" then some (.num (xs.length : Int))
    else
      match canonicalIndex k with
      | some n => xs[n]?
      | none => none
  | _, _ => none

/-- JavaScript member access `base[idx]` as used by `Fn::Select`
(`evaluatedArgs[index]`): numeric indexing of arrays and strings returns the
element or `undefined` when out of range; string keys go through property
lookup; anything else is `undefined`.  (Non-index properties of arrays and
strings other than `length` are not modelled.) -/
def jsGetIdx : CfnExpr → CfnExpr → CfnExpr
  | .arr xs, .num n => if n < 0 then .undefined else xs.getD n.toNat .undefined
  | .str s, .num n =>
    if n < 0 then .undefined
    else
      match s.data[n.toNat]? with
      | some c => .str (String.mk [c])
      | none => .undefined
  | v, .str k =>
    match jsGetProp v k with
    | some w => w
    | none => .undefined
  | .obj kvs, idx =>
    match kvs.lookup (jsToString idx) with
    | some w => w
    | none => .undefined
  | _, _ => .undefined

/-- The non-explicit branch of the `Fn::Sub` placeholder callback: split the
key on `.`; a single segment is a `Ref` (whose result the callback passes on
as-is), otherwise the first segment is the logical id and the remaining
segments re-joined with `.` are the attribute name
(`this['Fn::GetAtt'](splitKey[0], splitKey.slice(1).join('.'))`, a string). -/
def subKeyDispatch (self : EvaluateCloudFormationTemplate) (key : String) :
    Except EvalError CfnExpr :=
  let splitKey := jsStringSplit key "."
  if splitKey.length == 1 then refIntrinsic self (.str key)
  else (getAttIntrinsic self (.str (splitKey.headD ""))
    (.str (strJoin "." (splitKey.drop 1)))).map .str

/-- The `Fn::Sub` placeholder callback: `key in placeholders` is a JavaScript
`[[HasProperty]]` test on the evaluated explicit placeholders — an own key
first, else the inherited `Object.prototype` members; a hit substitutes the
property-get result (the stored value, or the inherited member for keys like
`"toString"`), a miss dispatches to `Ref`/`Fn::GetAtt`.  The `in` operator on
a non-object throws a `TypeError`.  On an array placeholder value `in` would
additionally consult `Array.prototype`, which is not modelled (no claim
involves array placeholder maps). -/
def subCallback (self : EvaluateCloudFormationTemplate) (placeholders : CfnExpr)
    (key : String) : Except EvalError CfnExpr :=
  match placeholders with
  | .obj kvs =>
    match kvs.lookup key with
    | some v => .ok v
    | none =>
      match objectPrototypeMember key with
      | some v => .ok v
      | none => subKeyDispatch self key
  | .arr xs =>
    match jsGetProp (.arr xs) key with
    | some v => .ok v
    | none =>
      match objectPrototypeMember key with
      | some v => .ok v
      | none => subKeyDispatch self key
  | _ => .error (.jsError ("Cannot use 'in' operator to search for '" ++ key ++ "'"))

/-- Scanning helper for the `${([^}]*)}` regular expression: the characters up
to the first `}` and the remainder after it, or `none` when no `}` follows. -/
def findClose : List Char → Option (List Char × List Char)
  | [] => none
  | c :: cs =>
    if c = '}' then some ([], cs)
    else
      match findClose cs with
      | some (key, rest) => some (c :: key, rest)
      | none => none

/-- `findClose` consumes at least the closing brace, so the remainder is
strictly shorter (termination measure for the template scan). -/
theorem findClose_rest_length (l : List Char) (k r : List Char)
    (h : findClose l = some (k, r)) : r.length < l.length := by
  induction l generalizing k r with
  | nil => simp [findClose] at h
  | cons a as ih =>
    rw [findClose] at h
    by_cases ha : a = '}'
    · rw [if_pos ha] at h
      injection h with h1
      injection h1 with h2 h3
      subst h3
      simp
    · rw [if_neg ha] at h
      cases hm : findClose as with
      | none => rw [hm] at h; exact absurd h (by simp)
      | some p =>
        obtain ⟨k2, r2⟩ := p
        rw [hm] at h
        injection h with h1
        injection h1 with h2 h3
        subst h3
        have := ih k2 r2 hm
        simp only [List.length_cons]
        omega

/-- `asyncGlobalReplace` specialised to the `Fn::Sub` regular expression
`${([^}]*)}`: scan the template left to right; at each `${` with a following
`}` resolve the enclosed key through `subCallback` (awaited before the scan
continues, hence strict left-to-right order) and splice the coerced result
between the untouched literal pieces; with no further `}` in the input no
further match exists and the remainder is emitted verbatim. -/
def subScan (self : EvaluateCloudFormationTemplate) (placeholders : CfnExpr) :
    List Char → Except EvalError String
  | [] => .ok ""
  | '$' :: '{' :: cs =>
    match h : findClose cs with
    | some (key, rest) => do
      let v ← subCallback self placeholders (String.mk key)
      let tail ← subScan self placeholders rest
      .ok (jsJoinElem v ++ tail)
    | none => .ok (String.mk ('$' :: '{' :: cs))
  | c :: cs => do
    let tail ← subScan self placeholders cs
    .ok (String.mk [c] ++ tail)
  termination_by s => s.length
  decreasing_by
    · have := findClose_rest_length cs key rest h
      simp only [List.length_cons]
      omega
    · simp only [List.length_cons]
      omega

/-- An intrinsic node already recognised by `parseIntrinsic`: the single key
and its value. -/
structure Intrinsic where
  name : String
  args : CfnExpr

/-- `parseIntrinsic`: an object whose single key starts with `Fn::` or equals
`Ref` is an intrinsic node; everything else is plain data. -/
def parseIntrinsic : CfnExpr → Option Intrinsic
  | .obj [(k, v)] =>
    if strStartsWith k "Fn::" || k == "Ref" then some ⟨k, v⟩ else none
  | _ => none

/-- `Array.isArray(intrinsic.args) ? intrinsic.args : [intrinsic.args]`. -/
def toArgsArray : CfnExpr → List CfnExpr
  | .arr xs => xs
  | other => [other]

/-- Positional argument access on the (spread) argument list; a missing
position is JavaScript `undefined`. -/
def argAt : List CfnExpr → Nat → CfnExpr
  | [], _ => .undefined
  | x :: _, 0 => x
  | _ :: xs, n + 1 => argAt xs n

/-- Every embedded value has positive size (for the termination measure). -/
theorem CfnExpr.one_le_sizeOf (e : CfnExpr) : 1 ≤ sizeOf e := by
  cases e <;> simp <;> omega

/-- A list element reached by `argAt` is no larger than the list. -/
theorem argAt_sizeOf_le_list (l : List CfnExpr) (i : Nat) :
    sizeOf (argAt l i) ≤ sizeOf l := by
  induction l generalizing i with
  | nil => cases i <;> simp [argAt]
  | cons x xs ih =>
    cases i with
    | zero => simp [argAt]; omega
    | succ n =>
      simp only [argAt]
      have := ih n
      simp
      omega

/-- A positional argument is no larger than the raw argument expression
(termination measure for intrinsic handlers that evaluate one argument). -/
theorem argAt_sizeOf_le (args : CfnExpr) (i : Nat) :
    sizeOf (argAt (toArgsArray args) i) ≤ sizeOf args := by
  cases hargs : args with
  | arr xs =>
    have := argAt_sizeOf_le_list xs i
    simp only [toArgsArray]
    simp
    omega
  | null =>
    cases i with
    | zero => simp [toArgsArray, argAt]
    | succ n => cases n <;> simp [toArgsArray, argAt]
  | undefined =>
    cases i with
    | zero => simp [toArgsArray, argAt]
    | succ n => cases n <;> simp [toArgsArray, argAt]
  | str s =>
    cases i with
    | zero => simp [toArgsArray, argAt]
    | succ n => cases n <;> simp [toArgsArray, argAt] <;> omega
  | num n0 =>
    cases i with
    | zero => simp [toArgsArray, argAt]
    | succ n => cases n <;> simp [toArgsArray, argAt] <;> omega
  | bool b =>
    cases i with
    | zero => simp [toArgsArray, argAt]
    | succ n => cases n <;> simp [toArgsArray, argAt] <;> omega
  | obj kvs =>
    cases i with
    | zero => simp [toArgsArray, argAt]
    | succ n => cases n <;> simp [toArgsArray, argAt] <;> omega
  | builtin d =>
    cases i with
    | zero => simp [toArgsArray, argAt]
    | succ n => cases n <;> simp [toArgsArray, argAt] <;> omega

/-- Lexicographic helper: a non-strict drop in the first component combined
with a strict drop in the second is a lexicographic descent. -/
theorem prodLex_of_le (a b : Nat) (h : a ≤ b) :
    Prod.Lex (fun x y : Nat => x < y) (fun x y : Nat => x < y) (a, 0) (b, 1) := by
  rcases Nat.lt_or_ge a b with hlt | hge
  · exact Prod.Lex.left _ _ hlt
  · have heq : a = b := Nat.le_antisymm h hge
    subst heq
    exact Prod.Lex.right _ (by omega)

/-- The arguments of a recognised intrinsic node are a strict subterm of the
node (termination measure for dispatch). -/
theorem parseIntrinsic_args_sizeOf (x : CfnExpr) (i : Intrinsic)
    (h : parseIntrinsic x = some i) : sizeOf i.args < sizeOf x := by
  cases x with
  | obj kvs =>
    cases kvs with
    | nil => simp [parseIntrinsic] at h
    | cons kv rest =>
      obtain ⟨k, v⟩ := kv
      cases rest with
      | nil =>
        simp only [parseIntrinsic] at h
        split at h
        · injection h with h1
          subst h1
          simp
          omega
        · exact absurd h (by simp)
      | cons kv2 rest2 => simp [parseIntrinsic] at h
  | null => simp [parseIntrinsic] at h
  | undefined => simp [parseIntrinsic] at h
  | str s => simp [parseIntrinsic] at h
  | num n => simp [parseIntrinsic] at h
  | bool b => simp [parseIntrinsic] at h
  | arr xs => simp [parseIntrinsic] at h
  | builtin d => simp [parseIntrinsic] at h

mutual

/-- `evaluateCfnExpression`: `null`/`undefined` pass through, arrays evaluate
element-wise in input order (`Promise.all` preserves positions), an object that
parses as an intrinsic node dispatches to the intrinsic handlers, any other
object evaluates each entry's value with keys unchanged, and remaining scalars
are returned as-is. -/
def evaluateCfnExpression (self : EvaluateCloudFormationTemplate) :
    CfnExpr → Except EvalError CfnExpr
  | .null => .ok .null
  | .undefined => .ok .undefined
  | .arr xs => do .ok (.arr (← evalElements self xs))
  | .obj kvs =>
    match hpi : parseIntrinsic (.obj kvs) with
    | some intrinsic => evaluateIntrinsic self intrinsic.name intrinsic.args
    | none => do .ok (.obj (← evalEntries self kvs))
  | .str s => .ok (.str s)
  | .num n => .ok (.num n)
  | .bool b => .ok (.bool b)
  | .builtin d => .ok (.builtin d)
  termination_by e => (sizeOf e, 0)
  decreasing_by
    all_goals
      first
      | exact prodLex_of_le _ _ (argAt_sizeOf_le args 1)
      | (apply Prod.Lex.left
         exact parseIntrinsic_args_sizeOf _ _ hpi)
      | (apply Prod.Lex.left
         simp
         omega)
      | (apply Prod.Lex.left
         simp)

/-- Element-wise evaluation of an array (order preserved, first failure
propagates). -/
def evalElements (self : EvaluateCloudFormationTemplate) :
    List CfnExpr → Except EvalError (List CfnExpr)
  | [] => .ok []
  | x :: xs => do .ok ((← evaluateCfnExpression self x) :: (← evalElements self xs))
  termination_by xs => (sizeOf xs, 0)
  decreasing_by
    all_goals
      first
      | exact prodLex_of_le _ _ (argAt_sizeOf_le args 1)
      | (apply Prod.Lex.left
         exact parseIntrinsic_args_sizeOf _ _ hpi)
      | (apply Prod.Lex.left
         simp
         omega)
      | (apply Prod.Lex.left
         simp)

/-- Entry-wise evaluation of a plain object (keys pass through unchanged). -/
def evalEntries (self : EvaluateCloudFormationTemplate) :
    List (String × CfnExpr) → Except EvalError (List (String × CfnExpr))
  | [] => .ok []
  | (k, v) :: rest => do .ok ((k, ← evaluateCfnExpression self v) :: (← evalEntries self rest))
  termination_by kvs => (sizeOf kvs, 0)
  decreasing_by
    all_goals
      first
      | exact prodLex_of_le _ _ (argAt_sizeOf_le args 1)
      | (apply Prod.Lex.left
         exact parseIntrinsic_args_sizeOf _ _ hpi)
      | (apply Prod.Lex.left
         simp
         omega)
      | (apply Prod.Lex.left
         simp)

/-- `CfnIntrinsics.evaluateIntrinsic`: the reflective `(this as any)[name]`
method lookup restricted to names accepted by `parseIntrinsic` can only reach
the six handler methods, so it is embedded as a closed match; any other
accepted name finds no handler and raises `CfnEvaluationException`.  Each
handler receives the spread positional arguments and evaluates exactly the
sub-expressions the source evaluates (e.g. `Fn::Sub` never evaluates its
template string). -/
def evaluateIntrinsic (self : EvaluateCloudFormationTemplate) (name : String)
    (args : CfnExpr) : Except EvalError CfnExpr :=
  let argsAsArray := toArgsArray args
  match name with
  | "Fn::Join" => do
    let evaluatedArgs ← evaluateCfnExpression self (argAt argsAsArray 1)
    match evaluatedArgs with
    | .arr xs =>
      let sep :=
        match argAt argsAsArray 0 with
        | .undefined => ","
        | v => jsToString v
      .ok (.str (jsArrayJoin sep xs))
    | _ => .error (.jsError "evaluatedArgs.join is not a function")
  | "Fn::Split" => do
    let evaluatedArgs ← evaluateCfnExpression self (argAt argsAsArray 1)
    match evaluatedArgs with
    | .str s =>
      match argAt argsAsArray 0 with
      | .undefined => .ok (.arr [.str s])
      | v => .ok (.arr ((jsStringSplit s (jsToString v)).map .str))
    | _ => .error (.jsError "evaluatedArgs.split is not a function")
  | "Fn::Select" => do
    let evaluatedArgs ← evaluateCfnExpression self (argAt argsAsArray 1)
    match evaluatedArgs with
    | .null => .error (.jsError "Cannot read properties of null")
    | .undefined => .error (.jsError "Cannot read properties of undefined")
    | v => .ok (jsGetIdx v (argAt argsAsArray 0))
  | "Ref" => refIntrinsic self (argAt argsAsArray 0)
  | "Fn::GetAtt" =>
    (getAttIntrinsic self (argAt argsAsArray 0) (argAt argsAsArray 1)).map .str
  | "Fn::Sub" => do
    let placeholders ←
      if jsFalsy (argAt argsAsArray 1) then .ok (CfnExpr.obj [])
      else evaluateCfnExpression self (argAt argsAsArray 1)
    (subScan self placeholders (jsToString (argAt argsAsArray 0)).data).map .str
  | _ => .error (.cfnEvaluationException ("CloudFormation function " ++ name ++
      " is not supported"))
  termination_by (sizeOf args, 1)
  decreasing_by
    all_goals
      first
      | exact prodLex_of_le _ _ (argAt_sizeOf_le args 1)
      | (apply Prod.Lex.left
         exact parseIntrinsic_args_sizeOf _ _ hpi)
      | (apply Prod.Lex.left
         simp
         omega)
      | (apply Prod.Lex.left
         simp)

end

/-- Whether an ordered entry list has the intrinsic-node shape: exactly one
key, and that key starts with `Fn::` or equals `Ref`. -/
def isIntrinsicObj : List (String × CfnExpr) → Bool
  | [(k, _)] => strStartsWith k "Fn::" || k == "Ref"
  | _ => false

mutual

/-- No intrinsic node occurs anywhere in the expression tree (the hypothesis
of the structural-identity property). -/
def noIntrinsic : CfnExpr → Bool
  | .arr xs => noIntrinsicElements xs
  | .obj kvs => !isIntrinsicObj kvs && noIntrinsicEntries kvs
  | _ => true

/-- `noIntrinsic` over the elements of an array. -/
def noIntrinsicElements : List CfnExpr → Bool
  | [] => true
  | x :: xs => noIntrinsic x && noIntrinsicElements xs

/-- `noIntrinsic` over the values of an object's entries. -/
def noIntrinsicEntries : List (String × CfnExpr) → Bool
  | [] => true
  | (_, v) :: rest => noIntrinsic v && noIntrinsicEntries rest

end

/-- A parsed `Fn::Sub` template piece.  Modelled from the spec: the template is
scanned left to right into untouched literal segments and non-overlapping
placeholder markers of the form a dollar sign and braces around a key. -/
inductive TemplateSegment where
  | lit (s : String)
  | placeholder (key : String)

/-- Modelled from the spec: the left-to-right, non-overlapping parse of a
template into literal segments and placeholder keys (a key is everything
between the braces, no nested braces supported; with no closing brace ahead no
further marker exists and the rest is one literal). -/
def parseTemplate : List Char → List TemplateSegment
  | [] => []
  | '$' :: '{' :: cs =>
    match h : findClose cs with
    | some (key, rest) => .placeholder (String.mk key) :: parseTemplate rest
    | none => [.lit (String.mk ('$' :: '{' :: cs))]
  | c :: cs => .lit (String.mk [c]) :: parseTemplate cs
  termination_by s => s.length
  decreasing_by
    · have := findClose_rest_length cs key rest h
      simp only [List.length_cons]
      omega
    · simp only [List.length_cons]
      omega

/-- Modelled from the spec: resolve one placeholder key to the text
substituted for it — the explicit placeholder value when the key is present in
that mapping; otherwise a key with no dot is treated as `Ref(key)` (the `Ref`
result rendered as `Array.prototype.join` renders it into the output string);
otherwise the key is split at the first dot, the left part being the logical
id and the remainder (further dots preserved verbatim) the attribute path via
`Fn::GetAtt`. -/
def specResolvePlaceholder (self : EvaluateCloudFormationTemplate)
    (phs : List (String × String)) (key : String) : Except EvalError String :=
  match phs.lookup key with
  | some v => .ok v
  | none =>
    if key.data.contains '.' then
      getAttIntrinsic self (.str (String.mk (key.data.takeWhile (fun c => c ≠ '.'))))
        (.str (String.mk ((key.data.dropWhile (fun c => c ≠ '.')).drop 1)))
    else (refIntrinsic self (.str key)).map jsJoinElem

/-- Modelled from the spec: substituted values and untouched literal segments
are concatenated in strict left-to-right template order, each placeholder
resolved before the scan continues. -/
def specSub (self : EvaluateCloudFormationTemplate) (phs : List (String × String)) :
    List TemplateSegment → Except EvalError String
  | [] => .ok ""
  | .lit s :: rest => do
    let tail ← specSub self phs rest
    .ok (s ++ tail)
  | .placeholder k :: rest => do
    let v ← specResolvePlaceholder self phs k
    let tail ← specSub self phs rest
    .ok (v ++ tail)

/-- An explicit-placeholder mapping of strings, embedded as an object
expression. -/
def strEntries (phs : List (String × String)) : List (String × CfnExpr) :=
  phs.map (fun p => (p.1, .str p.2))

/-- A concrete evaluator session used by the witnesses: one caller parameter,
and an inventory with an IAM role, an S3 bucket, a Lambda function and an SQS
queue (the last of which has no formatter-table row). -/
def env0 : EvaluateCloudFormationTemplate :=
  mkEvaluator
    { parameters := [("Foo", "bar")]
      account := "123456789012"
      region := "us-east-1"
      partition := "aws"
      urlSuffix := "amazonaws.com"
      resources := [⟨"MyRole", "role-1", "AWS::IAM::Role"⟩,
        ⟨"MyBucket", "my-bucket-1", "AWS::S3::Bucket"⟩,
        ⟨"MyFunc", "func-1", "AWS::Lambda::Function"⟩,
        ⟨"MyQueue", "queue-1", "AWS::SQS::Queue"⟩] }

/-- A session whose context binds the parameter `X` to the empty string while
the inventory also contains a resource with logical name `X`. -/
def envC2 : EvaluateCloudFormationTemplate :=
  mkEvaluator
    { parameters := [("X", "")]
      account := "123456789012"
      region := "us-east-1"
      partition := "aws"
      urlSuffix := "amazonaws.com"
      resources := [⟨"X", "phys-x", "AWS::S3::Bucket"⟩] }

/-- A session whose context has an own entry for the parameter name
`toString`, used to separate `Ref` resolution (which would find that entry)
from the `Fn::Sub` explicit-placeholder `in` test (which finds the inherited
`Object.prototype.toString` first). -/
def envC1 : EvaluateCloudFormationTemplate :=
  mkEvaluator
    { parameters := [("toString", "OVERRIDE")]
      account := "123456789012"
      region := "us-east-1"
      partition := "aws"
      urlSuffix := "amazonaws.com"
      resources := [] }

/-- Concrete constructor props whose caller parameters shadow the
`AWS::Region` pseudo-parameter. -/
def props0 : EvaluateCloudFormationTemplateProps :=
  { parameters := [("AWS::Region", "override"), ("Foo", "bar")]
    account := "111111111111"
    region := "eu-west-1"
    partition := "aws"
    urlSuffix := "amazonaws.com"
    resources := [] }

theorem splitOnList_ne_nil (sep : List Char) (s : List Char) :
    splitOnList sep s ≠ [] := by
  induction s using splitOnList.induct sep with
  | case1 => simp [splitOnList]
  | case2 c cs hpre _ =>
    rw [splitOnList]
    simp [hpre]
  | case3 c cs hpre heq _ =>
    rw [splitOnList]
    simp only [hpre, if_false]
    rw [heq]
    simp
  | case4 c cs hpre g gs heq _ =>
    rw [splitOnList]
    simp only [hpre, if_false]
    rw [heq]
    simp

/-- Splitting and re-joining with the same non-empty separator restores the
original character list. -/
theorem joinList_splitOnList (sep : List Char) (s : List Char) :
    joinList sep (splitOnList sep s) = s := by
  induction s using splitOnList.induct sep with
  | case1 => simp [splitOnList, joinList]
  | case2 c cs hpre ih =>
    rw [splitOnList]
    simp only [hpre, if_true]
    have hpre2 : sep.isPrefixOf (c :: cs) = true := by
      revert hpre; cases sep.isEmpty <;> simp_all
    have hsub : sep <+: (c :: cs) := List.isPrefixOf_iff_prefix.mp hpre2
    obtain ⟨t, ht⟩ := hsub
    have hne := splitOnList_ne_nil sep ((c :: cs).drop sep.length)
    cases hsplit : splitOnList sep ((c :: cs).drop sep.length) with
    | nil => exact absurd hsplit hne
    | cons g gs =>
      rw [joinList]
      rw [hsplit] at ih
      have : joinList sep (g :: gs) = (c :: cs).drop sep.length := ih
      rw [this, ← ht, List.drop_left]
      simp
  | case3 c cs hpre heq ih =>
    exact absurd heq (splitOnList_ne_nil sep cs)
  | case4 c cs hpre g gs heq ih =>
    rw [splitOnList]
    simp only [hpre, if_false]
    rw [heq]
    rw [heq] at ih
    cases gs with
    | nil =>
      simp only [joinList] at ih ⊢
      rw [ih]
    | cons g2 gs2 =>
      simp only [joinList, List.cons_append, List.append_assoc] at ih ⊢
      rw [ih]

theorem eval_obj_intrinsic (self : EvaluateCloudFormationTemplate)
    (kvs : List (String × CfnExpr)) (i : Intrinsic)
    (h : parseIntrinsic (.obj kvs) = some i) :
    evaluateCfnExpression self (.obj kvs) = evaluateIntrinsic self i.name i.args := by
  rw [evaluateCfnExpression]
  split
  · rename_i i2 hpi
    rw [h] at hpi
    injection hpi with h2
    rw [h2]
  · rename_i hpi
    rw [h] at hpi
    exact absurd hpi (by simp)

theorem eval_intrinsic_node (self : EvaluateCloudFormationTemplate)
    (name : String) (args : CfnExpr)
    (h : (strStartsWith name "Fn::" || name == "Ref") = true) :
    evaluateCfnExpression self (.obj [(name, args)]) = evaluateIntrinsic self name args := by
  have hp : parseIntrinsic (.obj [(name, args)]) = some ⟨name, args⟩ := by
    simp [parseIntrinsic, h]
  exact eval_obj_intrinsic self _ _ hp

theorem eval_obj_plain (self : EvaluateCloudFormationTemplate)
    (kvs : List (String × CfnExpr)) (h : parseIntrinsic (.obj kvs) = none) :
    evaluateCfnExpression self (.obj kvs) = (evalEntries self kvs).map .obj := by
  rw [evaluateCfnExpression]
  split
  · rename_i i2 hpi
    rw [h] at hpi
    exact absurd hpi (by simp)
  · cases he : evalEntries self kvs <;>
      simp [he, Except.map, Bind.bind, Except.bind]

theorem eval_arr (self : EvaluateCloudFormationTemplate) (xs : List CfnExpr) :
    evaluateCfnExpression self (.arr xs) = (evalElements self xs).map .arr := by
  rw [evaluateCfnExpression]
  cases he : evalElements self xs <;>
    simp [he, Except.map, Bind.bind, Except.bind]

theorem objectPrototypeMember_builtin (k : String) (v : CfnExpr)
    (h : objectPrototypeMember k = some v) : ∃ d, v = .builtin d := by
  unfold objectPrototypeMember at h
  split at h <;>
    first
    | (injection h with h2
       exact ⟨_, h2.symm⟩)
    | simp at h

theorem refIntrinsic_ok_truthy (self : EvaluateCloudFormationTemplate)
    (x : CfnExpr) (v : CfnExpr) (h : refIntrinsic self x = .ok v) :
    jsFalsy v = false := by
  rw [refIntrinsic] at h
  cases hrt : findRefTarget self x with
  | error e => rw [hrt] at h; simp [Bind.bind, Except.bind] at h
  | ok o =>
    rw [hrt] at h
    simp only [Bind.bind, Except.bind] at h
    cases o with
    | none => simp at h
    | some w =>
      cases hw : jsFalsy w
      · simp [hw] at h
        rw [← h]
        exact hw
      · simp [hw] at h

theorem eval_ref_str (self : EvaluateCloudFormationTemplate) (id : String) :
    evaluateCfnExpression self (.obj [("Ref", .str id)]) = refIntrinsic self (.str id) := by
  rw [eval_intrinsic_node self "Ref" (.str id) (by decide)]
  simp [evaluateIntrinsic, toArgsArray, argAt]

/-- C2 counterexample: the context of `envC2` has an entry for `X` (bound to
the empty string), yet `Ref X` does not return that entry — it returns the
physical id of the resource named `X` instead, because the parameter lookup
tests truthiness of the property-get result, not key presence. -/
theorem refParameterPresence_counterexample :
    objLookup envC2.context "X" = some "" ∧
    evaluateCfnExpression envC2 (.obj [("Ref", .str "X")]) = .ok (.str "phys-x") := by
  constructor
  · decide
  · simp [evaluateCfnExpression, parseIntrinsic, strStartsWith, evaluateIntrinsic,
      toArgsArray, argAt, refIntrinsic, findRefTarget, contextGet, objLookup,
      objectPrototypeMember, jsToString, mkEvaluator, envC2, pseudoParameters,
      findGetAttTarget, resFind, jsFalsy, formatResourceAttribute,
      Bind.bind, Except.bind, Except.map]

/-- C2 (amended): `Ref` resolution is the truthiness of the context property
get followed by the inventory.  A non-empty own context entry is returned; when
the get is falsy — an own entry holding `""`, or no own entry and no inherited
`Object.prototype` member of that name — the physical id of the first matching
inventory record is returned when it is non-empty, and with no matching record
the evaluation fails with the `CfnEvaluationException` whose message names the
logical id; when there is no own entry but the id names an `Object.prototype`
member, the inherited member itself is returned. -/
theorem refResolutionOrder (self : EvaluateCloudFormationTemplate) (id : String) :
    (∀ v, objLookup self.context id = some v → v ≠ "" →
      evaluateCfnExpression self (.obj [("Ref", .str id)]) = .ok (.str v)) ∧
    (∀ r, (objLookup self.context id = some "" ∨
        (objLookup self.context id = none ∧ objectPrototypeMember id = none)) →
      self.resources.find? (fun sr => sr.LogicalResourceId == id) = some r →
      r.PhysicalResourceId ≠ "" →
      evaluateCfnExpression self (.obj [("Ref", .str id)]) = .ok (.str r.PhysicalResourceId)) ∧
    ((objLookup self.context id = some "" ∨
        (objLookup self.context id = none ∧ objectPrototypeMember id = none)) →
      self.resources.find? (fun sr => sr.LogicalResourceId == id) = none →
      evaluateCfnExpression self (.obj [("Ref", .str id)]) =
        .error (.cfnEvaluationException ("Parameter or resource '" ++ id ++
          "' could not be found for evaluation"))) ∧
    (∀ v, objLookup self.context id = none → objectPrototypeMember id = some v →
      evaluateCfnExpression self (.obj [("Ref", .str id)]) = .ok v) := by
  refine ⟨?_, ?_, ?_, ?_⟩
  · intro v hv hne
    rw [eval_ref_str]
    simp [refIntrinsic, findRefTarget, contextGet, jsToString, jsFalsy, hv, hne,
      Bind.bind, Except.bind, Except.map]
  · intro r hctx hr hphys
    rw [eval_ref_str]
    rcases hctx with hctx | ⟨hctx, hproto⟩
    · simp [refIntrinsic, findRefTarget, contextGet, findGetAttTarget, resFind,
        jsToString, jsFalsy, formatResourceAttribute, hctx, hr, hphys,
        Bind.bind, Except.bind, Except.map]
    · simp [refIntrinsic, findRefTarget, contextGet, findGetAttTarget, resFind,
        jsToString, jsFalsy, formatResourceAttribute, hctx, hproto, hr, hphys,
        Bind.bind, Except.bind, Except.map]
  · intro hctx hr
    rw [eval_ref_str]
    rcases hctx with hctx | ⟨hctx, hproto⟩
    · simp [refIntrinsic, findRefTarget, contextGet, findGetAttTarget, resFind,
        jsToString, jsFalsy, hctx, hr, Bind.bind, Except.bind, Except.map]
    · simp [refIntrinsic, findRefTarget, contextGet, findGetAttTarget, resFind,
        jsToString, jsFalsy, hctx, hproto, hr, Bind.bind, Except.bind, Except.map]
  · intro v hctx hproto
    obtain ⟨d, rfl⟩ := objectPrototypeMember_builtin id v hproto
    rw [eval_ref_str]
    simp [refIntrinsic, findRefTarget, contextGet, jsToString, jsFalsy, hctx, hproto,
      Bind.bind, Except.bind, Except.map]

/-- C2 witness: concrete instantiation of the amended Ref-resolution claim. -/
theorem refResolutionOrder_witness :
    objLookup env0.context "Foo" = some "bar" ∧ "bar" ≠ "" ∧
    evaluateCfnExpression env0 (.obj [("Ref", .str "Foo")]) = .ok (.str "bar") :=
  ⟨by decide, by decide, (refResolutionOrder env0 "Foo").1 "bar" (by decide) (by decide)⟩

/-- C10: a parameter bound to the empty string is skipped by `Ref` — the
result is never that empty string, resolution falls through to the inventory,
and with no matching record it fails with the unresolved-reference
`CfnEvaluationException`.  (An own entry, even an empty one, shadows the
prototype chain, so the property get and the own-entry lookup agree on this
whole region.) -/
theorem emptyParameterFallsThrough (self : EvaluateCloudFormationTemplate) (id : String)
    (hctx : objLookup self.context id = some "") :
    (∀ v, evaluateCfnExpression self (.obj [("Ref", .str id)]) = .ok (.str v) → v ≠ "") ∧
    (∀ r, self.resources.find? (fun sr => sr.LogicalResourceId == id) = some r →
      r.PhysicalResourceId ≠ "" →
      evaluateCfnExpression self (.obj [("Ref", .str id)]) = .ok (.str r.PhysicalResourceId)) ∧
    (self.resources.find? (fun sr => sr.LogicalResourceId == id) = none →
      evaluateCfnExpression self (.obj [("Ref", .str id)]) =
        .error (.cfnEvaluationException ("Parameter or resource '" ++ id ++
          "' could not be found for evaluation"))) := by
  refine ⟨?_, ?_, ?_⟩
  · intro v hok
    rw [eval_ref_str] at hok
    have hf := refIntrinsic_ok_truthy self (.str id) (.str v) hok
    simp [jsFalsy] at hf
    exact hf
  · intro r hr hphys
    rw [eval_ref_str]
    simp [refIntrinsic, findRefTarget, contextGet, findGetAttTarget, resFind,
      jsToString, jsFalsy, formatResourceAttribute, hctx, hr, hphys,
      Bind.bind, Except.bind, Except.map]
  · intro hr
    rw [eval_ref_str]
    simp [refIntrinsic, findRefTarget, contextGet, findGetAttTarget, resFind,
      jsToString, jsFalsy, hctx, hr, Bind.bind, Except.bind, Except.map]

/-- C10 witness: concrete instantiation at a context binding `X` to the empty
string with a matching resource. -/
theorem emptyParameterFallsThrough_witness :
    objLookup envC2.context "X" = some "" ∧
    evaluateCfnExpression envC2 (.obj [("Ref", .str "X")]) = .ok (.str "phys-x") :=
  ⟨by decide,
    (emptyParameterFallsThrough envC2 "X" (by decide)).2.1
      ⟨"X", "phys-x", "AWS::S3::Bucket"⟩ (by decide) (by decide)⟩

/-- C3 counterexample: `Fn::Select` with index 5 on a three-element list does
not fail with an index-out-of-range error — it evaluates successfully to
JavaScript `undefined` (`evaluatedArgs[5]`). -/
theorem selectOutOfRange_counterexample :
    evaluateCfnExpression env0 (.obj [("Fn::Select",
      .arr [.num 5, .arr [.str "x", .str "y", .str "z"]])]) = .ok .undefined := by
  simp [evaluateCfnExpression, parseIntrinsic, strStartsWith, evaluateIntrinsic,
    toArgsArray, argAt, evalElements, jsGetIdx, List.getD,
    Bind.bind, Except.bind, Except.map, Pure.pure, Except.pure]

/-- C3 (amended): when the list argument evaluates to a sequence of length
`n`, an index inside the bounds returns the element at that index, and a
numeric index outside the bounds returns `undefined` — no error is raised. -/
theorem selectSemantics (self : EvaluateCloudFormationTemplate) (n : Int)
    (args : CfnExpr) (ys : List CfnExpr)
    (h : evaluateCfnExpression self args = .ok (.arr ys)) :
    (∀ (hn : 0 ≤ n) (hlt : n.toNat < ys.length),
      evaluateCfnExpression self (.obj [("Fn::Select", .arr [.num n, args])]) =
        .ok (ys.get ⟨n.toNat, hlt⟩)) ∧
    ((n < 0 ∨ ys.length ≤ n.toNat) →
      evaluateCfnExpression self (.obj [("Fn::Select", .arr [.num n, args])]) =
        .ok .undefined) := by
  have hbase : evaluateCfnExpression self (.obj [("Fn::Select", .arr [.num n, args])]) =
      .ok (jsGetIdx (.arr ys) (.num n)) := by
    rw [eval_intrinsic_node self "Fn::Select" (.arr [.num n, args]) (by decide)]
    simp [evaluateIntrinsic, toArgsArray, argAt, h, Bind.bind, Except.bind]
  constructor
  · intro hn hlt
    rw [hbase]
    have hneg : ¬ n < 0 := by omega
    simp [jsGetIdx, hneg, List.getD, List.getElem?_eq_getElem hlt]
  · intro hout
    rw [hbase]
    by_cases hneg : n < 0
    · simp [jsGetIdx, hneg]
    · have hbig : ys.length ≤ n.toNat := by
        rcases hout with hx | hx
        · exact absurd hx hneg
        · exact hx
      simp [jsGetIdx, hneg, List.getD, List.getElem?_eq_none hbig]

/-- C3 witness: concrete in-bounds instantiation of the amended claim. -/
theorem selectSemantics_witness :
    evaluateCfnExpression env0 (.obj [("Fn::Select",
      .arr [.num 1, .arr [.str "x", .str "y", .str "z"]])]) = .ok (.str "y") := by
  have h := (selectSemantics env0 1 (.arr [.str "x", .str "y", .str "z"])
    [.str "x", .str "y", .str "z"]
    (by simp [evaluateCfnExpression, parseIntrinsic, strStartsWith, evalElements,
      Bind.bind, Except.bind])).1 (by omega) (by decide)
  simpa using h

/-- C4: an intrinsic-shaped single key (starting with `Fn::` or equal to
`Ref`) that is not one of the six registered intrinsics makes evaluation fail
with the unsupported-intrinsic `CfnEvaluationException`; dispatch resolves no
such name to any handler. -/
theorem unsupportedIntrinsicClosed (self : EvaluateCloudFormationTemplate)
    (name : String) (args : CfnExpr)
    (hguard : strStartsWith name "Fn::" = true ∨ name = "Ref")
    (hsix : name ∉ (["Ref", "Fn::Join", "Fn::Split", "Fn::Select", "Fn::GetAtt",
      "Fn::Sub"] : List String)) :
    evaluateCfnExpression self (.obj [(name, args)]) =
      .error (.cfnEvaluationException ("CloudFormation function " ++ name ++
        " is not supported")) := by
  have hg2 : (strStartsWith name "Fn::" || name == "Ref") = true := by
    rcases hguard with h | h
    · simp [h]
    · simp [h]
  rw [eval_intrinsic_node self name args hg2]
  simp only [List.mem_cons, not_or] at hsix
  obtain ⟨h1, h2, h3, h4, h5, h6, _⟩ := hsix
  simp [evaluateIntrinsic, h1, h2, h3, h4, h5, h6]

/-- C4 witness: concrete instantiation at the unregistered name
`Fn::ImportValue`. -/
theorem unsupportedIntrinsicClosed_witness :
    (strStartsWith "Fn::ImportValue" "Fn::" = true ∨ "Fn::ImportValue" = "Ref") ∧
    ("Fn::ImportValue" ∉ (["Ref", "Fn::Join", "Fn::Split", "Fn::Select", "Fn::GetAtt",
      "Fn::Sub"] : List String)) ∧
    evaluateCfnExpression env0 (.obj [("Fn::ImportValue", .str "x")]) =
      .error (.cfnEvaluationException ("CloudFormation function " ++ "Fn::ImportValue" ++
        " is not supported")) :=
  ⟨Or.inl (by decide), by decide,
    unsupportedIntrinsicClosed env0 "Fn::ImportValue" (.str "x") (Or.inl (by decide))
      (by decide)⟩

/-- C5: the formatter table produces exactly the registered identifier shapes —
IAM Role/User/Group ARNs omit the region, the S3 bucket ARN omits account,
region and kind tag, and the Lambda function ARN is the full colon-separated
form. -/
theorem formatterTableShapes (self : EvaluateCloudFormationTemplate)
    (lname phys : String) :
    formatResourceAttribute self ⟨lname, phys, "AWS::IAM::Role"⟩ (.str "Arn") =
      .ok ("arn:" ++ self.partition ++ ":iam::" ++ self.account ++ ":role/" ++ phys) ∧
    formatResourceAttribute self ⟨lname, phys, "AWS::IAM::User"⟩ (.str "Arn") =
      .ok ("arn:" ++ self.partition ++ ":iam::" ++ self.account ++ ":user/" ++ phys) ∧
    formatResourceAttribute self ⟨lname, phys, "AWS::IAM::Group"⟩ (.str "Arn") =
      .ok ("arn:" ++ self.partition ++ ":iam::" ++ self.account ++ ":group/" ++ phys) ∧
    formatResourceAttribute self ⟨lname, phys, "AWS::S3::Bucket"⟩ (.str "Arn") =
      .ok ("arn:" ++ self.partition ++ ":s3:::" ++ phys) ∧
    formatResourceAttribute self ⟨lname, phys, "AWS::Lambda::Function"⟩ (.str "Arn") =
      .ok ("arn:" ++ self.partition ++ ":lambda:" ++ self.region ++ ":" ++
        self.account ++ ":function:" ++ phys) := by
  refine ⟨?_, ?_, ?_, ?_, ?_⟩ <;>
    · simp [formatResourceAttribute, jsFalsy, jsToString, RESOURCE_TYPE_ATTRIBUTES_FORMATS,
        getServiceOfResource, getResourceTypeArnPartOfResource, jsStringSplit, splitOnList,
        strToLower, asciiLower, iamArnFmt, s3ArnFmt, stdColonResourceArnFmt, List.lookup]
      apply String.ext
      simp [String.data_append]

/-- C7 counterexample: an attribute lookup on `AWS::SQS::Queue` (absent from
the formatter table) fails with a `CfnEvaluationException` that carries the
resource kind only inside its free-form message text — the exception's sole
datum is the message string, so no stable structured field holds the kind. -/
theorem unsupportedKindMessageOnly_counterexample :
    evaluateCfnExpression env0 (.obj [("Fn::GetAtt", .arr [.str "MyQueue", .str "Arn"])]) =
      .error (.cfnEvaluationException ("We don't support attributes of the " ++
        "'AWS::SQS::Queue' resource. This is a CDK limitation. " ++
        "Please report it at https://github.com/aws/aws-cdk/issues/new/choose")) := by
  simp [evaluateCfnExpression, parseIntrinsic, strStartsWith, evaluateIntrinsic,
    toArgsArray, argAt, getAttIntrinsic, findGetAttTarget, resFind, env0, mkEvaluator,
    formatResourceAttribute, jsFalsy, jsToString, RESOURCE_TYPE_ATTRIBUTES_FORMATS,
    objectPrototypeMember, List.lookup, Bind.bind, Except.bind, Except.map]

/-- C7 (amended): an attribute lookup on a resource kind that is absent from
the formatter table and does not name an `Object.prototype` member fails with a
`CfnEvaluationException` whose free-form message embeds the kind string; the
exception carries nothing besides that message (no structured field).  A kind
that names an `Object.prototype` member resolves to the inherited (truthy)
member instead and never produces this error. -/
theorem unsupportedKindMessage (self : EvaluateCloudFormationTemplate)
    (r : StackResource) (attr : CfnExpr)
    (hattr : jsFalsy attr = false)
    (hkind : RESOURCE_TYPE_ATTRIBUTES_FORMATS.lookup r.ResourceType = none)
    (hproto : objectPrototypeMember r.ResourceType = none) :
    formatResourceAttribute self r attr =
      .error (.cfnEvaluationException ("We don't support attributes of the '" ++
        r.ResourceType ++ "' resource. This is a CDK limitation. " ++
        "Please report it at https://github.com/aws/aws-cdk/issues/new/choose")) := by
  simp [formatResourceAttribute, hattr, hkind, hproto]

/-- C7 witness: concrete instantiation of the amended claim at the SQS queue
record. -/
theorem unsupportedKindMessage_witness :
    jsFalsy (.str "Arn") = false ∧
    RESOURCE_TYPE_ATTRIBUTES_FORMATS.lookup "AWS::SQS::Queue" = none ∧
    objectPrototypeMember "AWS::SQS::Queue" = none ∧
    formatResourceAttribute env0 ⟨"MyQueue", "queue-1", "AWS::SQS::Queue"⟩ (.str "Arn") =
      .error (.cfnEvaluationException ("We don't support attributes of the '" ++
        "AWS::SQS::Queue" ++ "' resource. This is a CDK limitation. " ++
        "Please report it at https://github.com/aws/aws-cdk/issues/new/choose")) :=
  ⟨by decide, by rfl, by rfl,
    unsupportedKindMessage env0 ⟨"MyQueue", "queue-1", "AWS::SQS::Queue"⟩ (.str "Arn")
      (by decide) (by rfl) (by rfl)⟩

theorem objLookup_append (a b : List (String × String)) (k : String) :
    objLookup (a ++ b) k =
      match objLookup b k with
      | some v => some v
      | none => objLookup a k := by
  induction a with
  | nil =>
    simp only [List.nil_append, objLookup]
    cases objLookup b k <;> simp
  | cons kv rest ih =>
    obtain ⟨k1, v1⟩ := kv
    simp only [List.cons_append, objLookup, List.append_eq]
    rw [ih]
    cases objLookup b k <;> cases objLookup rest k <;> simp

/-- C9: the context seeds the four pseudo-parameters first and then spreads the
caller parameters over them, so a caller entry always wins under lookup, and
each pseudo-parameter name not shadowed by the caller resolves to the session
value supplied at construction. -/
theorem contextSeedingAndShadowing (props : EvaluateCloudFormationTemplateProps) :
    (∀ k v, objLookup props.parameters k = some v →
      objLookup (mkEvaluator props).context k = some v) ∧
    (objLookup props.parameters "AWS::AccountId" = none →
      objLookup (mkEvaluator props).context "AWS::AccountId" = some props.account) ∧
    (objLookup props.parameters "AWS::Region" = none →
      objLookup (mkEvaluator props).context "AWS::Region" = some props.region) ∧
    (objLookup props.parameters "AWS::Partition" = none →
      objLookup (mkEvaluator props).context "AWS::Partition" = some props.partition) ∧
    (objLookup props.parameters "AWS::URLSuffix" = none →
      objLookup (mkEvaluator props).context "AWS::URLSuffix" = some props.urlSuffix) := by
  refine ⟨?_, ?_, ?_, ?_, ?_⟩
  · intro k v hv
    simp only [mkEvaluator]
    rw [objLookup_append, hv]
  · intro hnone
    simp only [mkEvaluator]
    rw [objLookup_append, hnone]
    simp [objLookup, pseudoParameters]
  · intro hnone
    simp only [mkEvaluator]
    rw [objLookup_append, hnone]
    simp [objLookup, pseudoParameters]
  · intro hnone
    simp only [mkEvaluator]
    rw [objLookup_append, hnone]
    simp [objLookup, pseudoParameters]
  · intro hnone
    simp only [mkEvaluator]
    rw [objLookup_append, hnone]
    simp [objLookup, pseudoParameters]

/-- C9 witness: with `props0` the caller's `AWS::Region` entry shadows the
pseudo-parameter, and the unshadowed `AWS::AccountId` still resolves to the
session account. -/
theorem contextSeedingAndShadowing_witness :
    objLookup props0.parameters "AWS::Region" = some "override" ∧
    objLookup (mkEvaluator props0).context "AWS::Region" = some "override" ∧
    objLookup props0.parameters "AWS::AccountId" = none ∧
    objLookup (mkEvaluator props0).context "AWS::AccountId" = some "111111111111" :=
  ⟨by decide,
    (contextSeedingAndShadowing props0).1 "AWS::Region" "override" (by decide),
    by decide,
    (contextSeedingAndShadowing props0).2.1 (by decide)⟩

theorem strMk_append (a b : List Char) :
    String.mk a ++ String.mk b = String.mk (a ++ b) := rfl

theorem strMk_data (s : String) : String.mk s.data = s := rfl

theorem jsArrayJoin_map_str (sep : String) (gs : List String) :
    jsArrayJoin sep (gs.map .str) = strJoin sep gs := by
  induction gs with
  | nil => simp [jsArrayJoin, strJoin]
  | cons g rest ih =>
    cases rest with
    | nil => simp [jsArrayJoin, strJoin, jsJoinElem, jsToString]
    | cons g2 rest2 =>
      simp only [List.map_cons, jsArrayJoin, strJoin, jsJoinElem, jsToString]
      simp only [List.map_cons] at ih
      rw [ih]

theorem strJoin_map_mk (sep : String) (css : List (List Char)) :
    strJoin sep (css.map String.mk) = String.mk (joinList sep.data css) := by
  induction css with
  | nil => simp [strJoin, joinList]
  | cons g rest ih =>
    cases rest with
    | nil => simp [strJoin, joinList]
    | cons g2 rest2 =>
      simp only [List.map_cons, strJoin, joinList]
      simp only [List.map_cons] at ih
      rw [ih]
      rw [show sep = String.mk sep.data from rfl, strMk_append, strMk_append]

/-- C8: joining with a non-empty separator the result of splitting a string on
that same separator restores the original string. -/
theorem splitJoinRoundTrip (self : EvaluateCloudFormationTemplate)
    (s sep : String) (hsep : sep ≠ "") :
    evaluateCfnExpression self (.obj [("Fn::Join", .arr [.str sep,
      .obj [("Fn::Split", .arr [.str sep, .str s])]])]) = .ok (.str s) := by
  have hsplit : evaluateCfnExpression self (.obj [("Fn::Split", .arr [.str sep, .str s])]) =
      .ok (.arr ((jsStringSplit s sep).map .str)) := by
    rw [eval_intrinsic_node self "Fn::Split" (.arr [.str sep, .str s]) (by decide)]
    simp [evaluateIntrinsic, toArgsArray, argAt, evaluateCfnExpression, jsToString,
      Bind.bind, Except.bind]
  rw [eval_intrinsic_node self "Fn::Join" _ (by decide)]
  simp only [evaluateIntrinsic, toArgsArray, argAt, hsplit, jsToString,
    Bind.bind, Except.bind]
  rw [jsArrayJoin_map_str]
  rw [jsStringSplit, if_neg hsep]
  rw [strJoin_map_mk]
  rw [joinList_splitOnList]

/-- C8 witness: concrete instantiation with separator `,` and a string that
contains it. -/
theorem splitJoinRoundTrip_witness :
    ("," : String) ≠ "" ∧
    evaluateCfnExpression env0 (.obj [("Fn::Join", .arr [.str ",",
      .obj [("Fn::Split", .arr [.str ",", .str "a,b,c"])]])]) = .ok (.str "a,b,c") :=
  ⟨by decide, splitJoinRoundTrip env0 "a,b,c" "," (by decide)⟩

theorem noIntrinsicElements_mem (xs : List CfnExpr) (x : CfnExpr)
    (h : noIntrinsicElements xs = true) (hx : x ∈ xs) : noIntrinsic x = true := by
  induction xs with
  | nil => cases hx
  | cons y ys ih =>
    rw [noIntrinsicElements] at h
    simp only [Bool.and_eq_true] at h
    rcases List.mem_cons.mp hx with h1 | h1
    · rw [h1]; exact h.1
    · exact ih h.2 h1

theorem noIntrinsicEntries_mem (kvs : List (String × CfnExpr)) (k : String) (v : CfnExpr)
    (h : noIntrinsicEntries kvs = true) (hx : (k, v) ∈ kvs) : noIntrinsic v = true := by
  induction kvs with
  | nil => cases hx
  | cons kv rest ih =>
    obtain ⟨k1, v1⟩ := kv
    rw [noIntrinsicEntries] at h
    simp only [Bool.and_eq_true] at h
    rcases List.mem_cons.mp hx with h1 | h1
    · cases h1
      exact h.1
    · exact ih h.2 h1

theorem parseIntrinsic_none_of_notIntrinsicObj (kvs : List (String × CfnExpr))
    (h : isIntrinsicObj kvs = false) : parseIntrinsic (.obj kvs) = none := by
  cases kvs with
  | nil => simp [parseIntrinsic]
  | cons kv rest =>
    obtain ⟨k, v⟩ := kv
    cases rest with
    | nil =>
      simp only [isIntrinsicObj] at h
      simp [parseIntrinsic, h]
    | cons kv2 rest2 => simp [parseIntrinsic]

theorem evalElements_id (self : EvaluateCloudFormationTemplate) (xs : List CfnExpr)
    (h : ∀ x ∈ xs, evaluateCfnExpression self x = .ok x) :
    evalElements self xs = .ok xs := by
  induction xs with
  | nil => rw [evalElements]
  | cons y ys ih =>
    rw [evalElements]
    rw [h y (by simp)]
    rw [ih (fun x hx => h x (by simp [hx]))]
    simp [Bind.bind, Except.bind]

theorem evalEntries_id (self : EvaluateCloudFormationTemplate)
    (kvs : List (String × CfnExpr))
    (h : ∀ kv ∈ kvs, evaluateCfnExpression self kv.2 = .ok kv.2) :
    evalEntries self kvs = .ok kvs := by
  induction kvs with
  | nil => rw [evalEntries]
  | cons kv rest ih =>
    obtain ⟨k, v⟩ := kv
    rw [evalEntries]
    rw [h (k, v) (by simp)]
    rw [ih (fun kv2 hkv2 => h kv2 (by simp [hkv2]))]
    simp [Bind.bind, Except.bind]

theorem structuralIdentityAux (self : EvaluateCloudFormationTemplate) :
    ∀ (N : Nat) (e : CfnExpr), sizeOf e ≤ N → noIntrinsic e = true →
      evaluateCfnExpression self e = .ok e := by
  intro N
  induction N using Nat.strong_induction_on with
  | _ N ih =>
    intro e hsize hno
    cases e with
    | null => rw [evaluateCfnExpression]
    | undefined => rw [evaluateCfnExpression]
    | str s => rw [evaluateCfnExpression]
    | num n => rw [evaluateCfnExpression]
    | bool b => rw [evaluateCfnExpression]
    | builtin d => rw [evaluateCfnExpression]
    | arr xs =>
      rw [eval_arr]
      have hall : ∀ x ∈ xs, evaluateCfnExpression self x = .ok x := by
        intro x hx
        have hlt := List.sizeOf_lt_of_mem hx
        have hs : sizeOf x < N := by
          simp only [CfnExpr.arr.sizeOf_spec] at hsize
          omega
        exact ih (sizeOf x) hs x le_rfl
          (noIntrinsicElements_mem xs x (by simpa [noIntrinsic] using hno) hx)
      rw [evalElements_id self xs hall]
      rfl
    | obj kvs =>
      simp only [noIntrinsic, Bool.and_eq_true, Bool.not_eq_true'] at hno
      obtain ⟨hio, hne⟩ := hno
      rw [eval_obj_plain self kvs (parseIntrinsic_none_of_notIntrinsicObj kvs hio)]
      have hall : ∀ kv ∈ kvs, evaluateCfnExpression self kv.2 = .ok kv.2 := by
        intro kv hkv
        obtain ⟨k, v⟩ := kv
        have hlt := List.sizeOf_lt_of_mem hkv
        have hs : sizeOf v < N := by
          simp only [CfnExpr.obj.sizeOf_spec] at hsize
          simp only [Prod.mk.sizeOf_spec] at hlt
          omega
        exact ih (sizeOf v) hs v le_rfl (noIntrinsicEntries_mem kvs k v hne hkv)
      rw [evalEntries_id self kvs hall]
      rfl

/-- C6: an expression tree with no intrinsic node at any depth evaluates to a
value structurally equal to itself — `null` and scalars unchanged, sequences
with length and order preserved, and plain objects with their keys kept and
values evaluated recursively. -/
theorem structuralIdentity (self : EvaluateCloudFormationTemplate) (e : CfnExpr)
    (h : noIntrinsic e = true) : evaluateCfnExpression self e = .ok e :=
  structuralIdentityAux self (sizeOf e) e le_rfl h

/-- C6 witness: a nested intrinsic-free tree passes through evaluation
unchanged. -/
theorem structuralIdentity_witness :
    noIntrinsic (.obj [("a", .arr [.num 1, .null]), ("b", .str "c")]) = true ∧
    evaluateCfnExpression env0 (.obj [("a", .arr [.num 1, .null]), ("b", .str "c")]) =
      .ok (.obj [("a", .arr [.num 1, .null]), ("b", .str "c")]) :=
  ⟨by rfl,
    structuralIdentity env0 (.obj [("a", .arr [.num 1, .null]), ("b", .str "c")]) (by rfl)⟩

theorem splitDot_cons (c : Char) (cs : List Char) :
    splitOnList ['.'] (c :: cs) =
      if c = '.' then [] :: splitOnList ['.'] cs
      else
        match splitOnList ['.'] cs with
        | [] => [[c]]
        | g :: gs => (c :: g) :: gs := by
  rw [splitOnList]
  by_cases hc : c = '.'
  · subst hc
    simp [List.isPrefixOf]
  · have hpre : (['.'].isPrefixOf (c :: cs)) = false := by
      simp [List.isPrefixOf]
      intro heq
      exact absurd heq.symm hc
    simp [hpre, hc]

theorem splitDot_length_one (cs : List Char) :
    ((splitOnList ['.'] cs).length = 1) ↔ ('.' ∉ cs) := by
  induction cs with
  | nil => simp [splitOnList]
  | cons c cs ih =>
    rw [splitDot_cons]
    by_cases hc : c = '.'
    · subst hc
      have hne := splitOnList_ne_nil ['.'] cs
      simp
      intro hlen
      exact absurd hlen hne
    · cases hs : splitOnList ['.'] cs with
      | nil => exact absurd hs (splitOnList_ne_nil _ _)
      | cons g gs =>
        rw [hs] at ih
        simp only [hs, if_neg hc, List.length_cons, List.mem_cons] at ih ⊢
        constructor
        · intro hlen hmem
          rcases hmem with hmem | hmem
          · exact hc hmem.symm
          · exact (ih.mp hlen) hmem
        · intro hmem
          exact ih.mpr (fun hm => hmem (Or.inr hm))

theorem splitDot_head (cs : List Char) :
    (splitOnList ['.'] cs).headD [] = cs.takeWhile (fun c => c ≠ '.') := by
  induction cs with
  | nil => simp [splitOnList]
  | cons c cs ih =>
    rw [splitDot_cons]
    by_cases hc : c = '.'
    · subst hc
      simp
    · cases hs : splitOnList ['.'] cs with
      | nil => exact absurd hs (splitOnList_ne_nil _ _)
      | cons g gs =>
        rw [hs] at ih
        simp only [List.headD_cons] at ih
        simp [hc, hs, ih]

theorem splitDot_drop_join (cs : List Char) (h : '.' ∈ cs) :
    joinList ['.'] ((splitOnList ['.'] cs).drop 1) =
      (cs.dropWhile (fun c => c ≠ '.')).drop 1 := by
  induction cs with
  | nil => cases h
  | cons c cs ih =>
    rw [splitDot_cons]
    by_cases hc : c = '.'
    · subst hc
      simp
      exact joinList_splitOnList ['.'] cs
    · have h2 : '.' ∈ cs := by
        rcases List.mem_cons.mp h with hx | hx
        · exact absurd hx.symm hc
        · exact hx
      cases hs : splitOnList ['.'] cs with
      | nil => exact absurd hs (splitOnList_ne_nil _ _)
      | cons g gs =>
        rw [hs] at ih
        simp only [List.drop_succ_cons, List.drop_zero] at ih
        simp [hc, hs, ih h2]

theorem map_str_jsJoinElem (x : Except EvalError String) :
    (x.map CfnExpr.str).map jsJoinElem = x := by
  cases x <;> simp [Except.map, jsJoinElem, jsToString]

theorem subKeyDispatch_eq_spec (self : EvaluateCloudFormationTemplate) (key : String) :
    (subKeyDispatch self key).map jsJoinElem =
      (if key.data.contains '.' then
        getAttIntrinsic self (.str (String.mk (key.data.takeWhile (fun c => c ≠ '.'))))
          (.str (String.mk ((key.data.dropWhile (fun c => c ≠ '.')).drop 1)))
      else (refIntrinsic self (.str key)).map jsJoinElem) := by
  have hsplit : jsStringSplit key "." = (splitOnList ['.'] key.data).map String.mk := by
    rw [jsStringSplit, if_neg (by decide)]
  by_cases hdot : '.' ∈ key.data
  · have hcont : key.data.contains '.' = true := List.elem_eq_true_of_mem hdot
    have hlen : ¬ ((splitOnList ['.'] key.data).length = 1) := by
      rw [splitDot_length_one]
      simp [hdot]
    have hcond : ((jsStringSplit key ".").length == 1) = false := by
      rw [hsplit]
      simp only [List.length_map]
      simpa using hlen
    rw [subKeyDispatch]
    simp only [hcond, Bool.false_eq_true, if_false, hcont, if_true]
    cases hs : splitOnList ['.'] key.data with
    | nil => exact absurd hs (splitOnList_ne_nil _ _)
    | cons g gs =>
      have hhead : g = key.data.takeWhile (fun c => c ≠ '.') := by
        have := splitDot_head key.data
        rw [hs] at this
        simpa using this
      have hjoin : joinList ['.'] gs = (key.data.dropWhile (fun c => c ≠ '.')).drop 1 := by
        have := splitDot_drop_join key.data hdot
        rw [hs] at this
        simpa using this
      rw [hsplit, hs]
      simp only [List.map_cons, List.headD_cons, List.drop_succ_cons, List.drop_zero]
      rw [strJoin_map_mk]
      rw [show ("." : String).data = ['.'] from rfl]
      rw [hjoin, hhead]
      exact map_str_jsJoinElem _
  · have hcont : key.data.contains '.' = false := by
      cases hx : key.data.contains '.'
      · rfl
      · exact absurd (List.mem_of_elem_eq_true hx) hdot
    have hcond : ((jsStringSplit key ".").length == 1) = true := by
      rw [hsplit]
      simp only [List.length_map]
      simp [splitDot_length_one, hdot]
    rw [subKeyDispatch]
    simp only [hcond, if_true, hcont, Bool.false_eq_true, if_false]

theorem strEntries_lookup (phs : List (String × String)) (key : String) :
    (strEntries phs).lookup key = (phs.lookup key).map CfnExpr.str := by
  induction phs with
  | nil => simp [strEntries]
  | cons p rest ih =>
    obtain ⟨k, v⟩ := p
    simp only [strEntries, List.map_cons, List.lookup] at ih ⊢
    cases hkk : (key == k) <;> simp [hkk, ih]

theorem eval_strEntries (self : EvaluateCloudFormationTemplate)
    (phs : List (String × String))
    (hshape : parseIntrinsic (.obj (strEntries phs)) = none) :
    evaluateCfnExpression self (.obj (strEntries phs)) = .ok (.obj (strEntries phs)) := by
  rw [eval_obj_plain self _ hshape]
  rw [evalEntries_id]
  · rfl
  · intro kv hkv
    simp only [strEntries, List.mem_map] at hkv
    obtain ⟨p, hp, hkv2⟩ := hkv
    rw [← hkv2]
    rw [evaluateCfnExpression]

theorem subCallback_eq_spec (self : EvaluateCloudFormationTemplate)
    (phs : List (String × String)) (key : String)
    (hk : objectPrototypeMember key = none ∨ (phs.lookup key).isSome = true) :
    (subCallback self (.obj (strEntries phs)) key).map jsJoinElem =
      specResolvePlaceholder self phs key := by
  rw [subCallback]
  rw [strEntries_lookup]
  cases hl : phs.lookup key with
  | some v => simp [specResolvePlaceholder, hl, Except.map, jsJoinElem, jsToString]
  | none =>
    have hproto : objectPrototypeMember key = none := by
      rcases hk with hk | hk
      · exact hk
      · rw [hl] at hk
        simp at hk
    simp only [Option.map_none', hproto]
    rw [subKeyDispatch_eq_spec]
    simp only [specResolvePlaceholder, hl]

theorem subScan_placeholder (self : EvaluateCloudFormationTemplate)
    (placeholders : CfnExpr) (cs key rest : List Char)
    (h : findClose cs = some (key, rest)) :
    subScan self placeholders ('$' :: '{' :: cs) =
      (do
        let v ← subCallback self placeholders (String.mk key)
        let tail ← subScan self placeholders rest
        Except.ok (jsJoinElem v ++ tail)) := by
  rw [subScan]
  split
  · rename_i key2 rest2 heq
    rw [h] at heq
    injection heq with heq2
    injection heq2 with hk hr
    rw [hk, hr]
  · rename_i heq
    rw [h] at heq
    exact absurd heq (by simp)

theorem subScan_noclose (self : EvaluateCloudFormationTemplate)
    (placeholders : CfnExpr) (cs : List Char)
    (h : findClose cs = none) :
    subScan self placeholders ('$' :: '{' :: cs) = .ok (String.mk ('$' :: '{' :: cs)) := by
  rw [subScan]
  split
  · rename_i key2 rest2 heq
    rw [h] at heq
    exact absurd heq (by simp)
  · rfl

theorem parseTemplate_placeholder (cs key rest : List Char)
    (h : findClose cs = some (key, rest)) :
    parseTemplate ('$' :: '{' :: cs) =
      .placeholder (String.mk key) :: parseTemplate rest := by
  rw [parseTemplate]
  split
  · rename_i key2 rest2 heq
    rw [h] at heq
    injection heq with heq2
    injection heq2 with hk hr
    rw [hk, hr]
  · rename_i heq
    rw [h] at heq
    exact absurd heq (by simp)

theorem parseTemplate_noclose (cs : List Char) (h : findClose cs = none) :
    parseTemplate ('$' :: '{' :: cs) = [.lit (String.mk ('$' :: '{' :: cs))] := by
  rw [parseTemplate]
  split
  · rename_i key2 rest2 heq
    rw [h] at heq
    exact absurd heq (by simp)
  · rfl

theorem parseTemplate_lit (c : Char) (cs : List Char)
    (h : ∀ cs1 : List Char, c = '$' → cs = '{' :: cs1 → False) :
    parseTemplate (c :: cs) = .lit (String.mk [c]) :: parseTemplate cs := by
  rw [parseTemplate]
  exact fun cs1 hc hcs => h cs1 hc hcs

theorem subScan_eq_specSub (self : EvaluateCloudFormationTemplate)
    (phs : List (String × String)) :
    ∀ cs : List Char,
      (∀ k, TemplateSegment.placeholder k ∈ parseTemplate cs →
        objectPrototypeMember k = none ∨ (phs.lookup k).isSome = true) →
      subScan self (.obj (strEntries phs)) cs = specSub self phs (parseTemplate cs) := by
  intro cs
  induction cs using subScan.induct self (.obj (strEntries phs)) with
  | case1 =>
    intro _
    rw [subScan, parseTemplate, specSub]
  | case2 cs key rest h ih =>
    intro hkeys
    rw [parseTemplate_placeholder cs key rest h] at hkeys
    rw [subScan_placeholder self _ cs key rest h]
    rw [parseTemplate_placeholder cs key rest h]
    rw [specSub]
    have hone : objectPrototypeMember (String.mk key) = none ∨
        (phs.lookup (String.mk key)).isSome = true :=
      hkeys (String.mk key) (List.mem_cons_self _ _)
    rw [← subCallback_eq_spec self phs (String.mk key) hone]
    have ihr := ih (fun k hk => hkeys k (List.mem_cons_of_mem _ hk))
    cases hc : subCallback self (.obj (strEntries phs)) (String.mk key) with
    | error e => simp [hc, Except.map, Bind.bind, Except.bind]
    | ok v =>
      rw [ihr]
      cases ht : specSub self phs (parseTemplate rest) with
      | error e => simp [hc, ht, Except.map, Bind.bind, Except.bind]
      | ok tail => simp [hc, ht, Except.map, Bind.bind, Except.bind]
  | case3 cs h =>
    intro _
    rw [subScan_noclose self _ cs h]
    rw [parseTemplate_noclose cs h]
    rw [specSub, specSub]
    simp [Bind.bind, Except.bind]
  | case4 c cs h ih =>
    intro hkeys
    have hlit := parseTemplate_lit c cs (fun cs1 hc hcs => h cs1 hc hcs)
    rw [hlit] at hkeys
    rw [subScan]
    · rw [hlit, specSub]
      rw [ih (fun k hk => hkeys k (List.mem_cons_of_mem _ hk))]
    · exact fun cs1 hc hcs => h cs1 hc hcs

/-- C1 counterexample: the Parameter Context of `envC1` has an own entry
binding `toString` to `OVERRIDE`, and a bare `Ref` of `toString` returns that
entry; yet `Fn::Sub` of `"${toString}"` with an empty explicit mapping does
not dispatch the key to `Ref` — `key in placeholders` is true for `toString`
even on `{}` because the test consults the prototype chain, so the inherited
`Object.prototype.toString` function is substituted instead. -/
theorem subImplicitKey_counterexample :
    evaluateCfnExpression envC1 (.obj [("Ref", .str "toString")]) =
      .ok (.str "OVERRIDE") ∧
    evaluateCfnExpression envC1
      (.obj [("Fn::Sub", .arr [.str "${toString}", .obj []])]) =
      .ok (.str "function toString() { [native code] }") := by
  constructor
  · rw [eval_ref_str]
    simp [refIntrinsic, findRefTarget, contextGet, objLookup, objectPrototypeMember,
      jsToString, jsFalsy, mkEvaluator, envC1, pseudoParameters,
      Bind.bind, Except.bind, Except.map]
  · rw [eval_intrinsic_node envC1 "Fn::Sub" (.arr [.str "${toString}", .obj []]) (by decide)]
    simp only [evaluateIntrinsic, toArgsArray, argAt, jsFalsy, Bool.false_eq_true, if_false]
    rw [show evaluateCfnExpression envC1 (.obj []) = Except.ok (.obj []) from
      eval_strEntries envC1 [] (by rfl)]
    simp only [Bind.bind, Except.bind, jsToString]
    rw [subScan_placeholder envC1 (.obj []) ['t', 'o', 'S', 't', 'r', 'i', 'n', 'g', '}']
      ['t', 'o', 'S', 't', 'r', 'i', 'n', 'g'] [] (by decide)]
    rw [show subScan envC1 (.obj []) [] = Except.ok "" from by rw [subScan]]
    simp [subCallback, objectPrototypeMember, jsJoinElem, jsToString,
      Bind.bind, Except.bind, Except.map, Pure.pure, Except.pure]

/-- C1 (amended): for every `Fn::Sub` of a template string with an explicit
string placeholder mapping, provided each placeholder key of the template is
either present in that mapping or not the name of an `Object.prototype`
member, evaluation agrees with the specification model — the template is
scanned left to right into untouched literals and placeholders, each key is
resolved by explicit-mapping lookup first, then as `Ref` when it has no dot,
otherwise as `Fn::GetAtt` split at the first dot with the remainder kept
verbatim, and the pieces are concatenated in template order.  (A key missing
from the mapping that names an inherited `Object.prototype` member instead
substitutes that inherited member, because `key in placeholders` consults the
prototype chain.) -/
theorem subMatchesSpec (self : EvaluateCloudFormationTemplate) (template : String)
    (phs : List (String × String))
    (hshape : parseIntrinsic (.obj (strEntries phs)) = none)
    (hkeys : ∀ k, TemplateSegment.placeholder k ∈ parseTemplate template.data →
      objectPrototypeMember k = none ∨ (phs.lookup k).isSome = true) :
    evaluateCfnExpression self
      (.obj [("Fn::Sub", .arr [.str template, .obj (strEntries phs)])]) =
      (specSub self phs (parseTemplate template.data)).map .str := by
  rw [eval_intrinsic_node self "Fn::Sub"
    (.arr [.str template, .obj (strEntries phs)]) (by decide)]
  simp only [evaluateIntrinsic, toArgsArray, argAt, jsFalsy, Bool.false_eq_true, if_false]
  rw [eval_strEntries self phs hshape]
  simp only [Bind.bind, Except.bind, jsToString]
  rw [subScan_eq_specSub self phs template.data hkeys]

/-- C1 witness: concrete instantiation with the template `Hello ${Name}` and
the explicit placeholder mapping binding `Name` to `World` (whose single
placeholder key `Name` is present in the mapping). -/
theorem subMatchesSpec_witness :
    parseIntrinsic (.obj (strEntries [("Name", "World")])) = none ∧
    evaluateCfnExpression env0 (.obj [("Fn::Sub",
      .arr [.str "Hello ${Name}", .obj (strEntries [("Name", "World")])])]) =
      (specSub env0 [("Name", "World")] (parseTemplate ("Hello ${Name}").data)).map .str :=
  ⟨by rfl, subMatchesSpec env0 "Hello ${Name}" [("Name", "World")] (by rfl)
    (by
      intro k hk
      rw [show ("Hello ${Name}").data =
        ['H', 'e', 'l', 'l', 'o', ' ', '$', '{', 'N', 'a', 'm', 'e', '}'] from rfl] at hk
      rw [parseTemplate_lit, parseTemplate_lit, parseTemplate_lit, parseTemplate_lit,
        parseTemplate_lit, parseTemplate_lit] at hk
      · rw [parseTemplate_placeholder ['N', 'a', 'm', 'e', '}'] ['N', 'a', 'm', 'e'] []
          (by decide)] at hk
        rw [show parseTemplate ([] : List Char) = [] from by rw [parseTemplate]] at hk
        simp at hk
        rw [hk]
        right
        decide
      all_goals exact fun cs1 hc hcs => by simp at hc
      )⟩
